import Mathlib

/-!
# Verification of the mobile-forge `Builder` pipeline (`src/forge/build.py`)

A shallow embedding of the build pipeline: package records, cross-compilation
target environments, the derived download/build paths of the three builder
strategies, tar member path-stripping, patch application with abort-on-failure,
the RFC 822-style metadata writer, and the PyPI sdist lookup.

Python strings are modelled as `List Char`; filesystem paths as lists of path
components relative to the working directory. Effectful pipeline stages are
modelled as pure functions producing an event trace and a success flag, with
Python's exception propagation made explicit.
-/

set_option maxRecDepth 4000

namespace Forge

/-- A Python string, modelled as its list of characters. -/
abbrev PyStr := List Char

/-! ## Data model

`Package` embeds the fields of the package record that `build.py` reads:
`name`, `version`, `meta["source"]["url"]`, `str(meta["build"]["number"])`
(already rendered to a string, as the code immediately applies `str`), and
`recipe_path`. `CrossVEnv` embeds the attributes of the target environment
handle used by the builders. -/

structure Package where
  name : PyStr
  version : PyStr
  source_url : PyStr
  build_number : PyStr
  recipe_path : PyStr
  deriving DecidableEq

structure CrossVEnv where
  tag : PyStr
  platform_triplet : PyStr
  install_root : PyStr
  cc : PyStr
  cflags : PyStr
  ldflags : PyStr
  deriving DecidableEq

/-! ## Python `str.split` -/

/-- One step of Python's `str.split(sep, maxsplit)`: split `s` at the first
occurrence of `sep`, returning the parts before and after it, or `none` when
`sep` does not occur. -/
def pySplitOnce (sep : Char) : PyStr → Option (PyStr × PyStr)
  | [] => none
  | c :: cs =>
    if c = sep then some ([], cs)
    else
      match pySplitOnce sep cs with
      | none => none
      | some (l, r) => some (c :: l, r)

/-- Python's `s.split(sep, maxsplit)` for a single-character separator:
split at the first `maxsplit` occurrences of `sep`. -/
def pySplit (sep : Char) : Nat → PyStr → List PyStr
  | 0, s => [s]
  | n + 1, s =>
    match pySplitOnce sep s with
    | none => [s]
    | some (l, r) => l :: pySplit sep n r

/-- Python's `s.split(sep)` without a `maxsplit` bound: `s.length` splits
always suffice. -/
def pySplitAll (sep : Char) (s : PyStr) : List PyStr :=
  pySplit sep s.length s

/-- Python's `url.split("/")[-1]`: the last element of the full split. -/
def lastSegment (url : PyStr) : PyStr :=
  (pySplitAll '/' url).getLastD []

/-! ## Derived paths

The three builder classes. `CMakePackageBuilder` inherits both path
properties from `SimplePackageBuilder` unchanged. A path is modelled as its
list of components below the working directory. -/

inductive Strategy where
  | simple
  | cmake
  | python
  deriving DecidableEq

/-- `Builder.source_file_path` per strategy (build.py lines 99-103, 225-231):
`downloads/<last URL segment>` for the simple/cmake builders,
`downloads/<name>-<version>.tar.gz` for the PyPI builder. -/
def source_file_path : Strategy → Package → CrossVEnv → List PyStr
  | .simple, p, _ => ["downloads".data, lastSegment p.source_url]
  | .cmake, p, _ => ["downloads".data, lastSegment p.source_url]
  | .python, p, _ =>
    ["downloads".data, p.name ++ "-".data ++ p.version ++ ".tar.gz".data]

/-- `Builder.build_path` per strategy (build.py lines 105-115, 233-235):
`build/<name>/<version>/<tag>` for the simple/cmake builders,
`build/<name>/<version>` (no tag component) for the PyPI builder. -/
def build_path : Strategy → Package → CrossVEnv → List PyStr
  | .simple, p, v => ["build".data, p.name, p.version, v.tag]
  | .cmake, p, v => ["build".data, p.name, p.version, v.tag]
  | .python, p, _ => ["build".data, p.name, p.version]

/-! ## Tar member path stripping (`Builder.unpack_source`, lines 45-66)

The `members` generator splits each member path on its first `strip`
separators and rewrites the path to `parts[strip]`, dropping the member
(via the caught `IndexError`) when no such part exists. -/

/-- `parts = member.path.split("/", strip); parts[strip]`, with `none` for
the caught `IndexError`. -/
def stripMember (strip : Nat) (path : PyStr) : Option PyStr :=
  (pySplit '/' strip path)[strip]?

/-- The relative paths extracted by `tar.extractall(members=members(tar, strip))`:
each member whose rewritten path exists, in order. -/
def unpackMembers (strip : Nat) (paths : List PyStr) : List PyStr :=
  paths.filterMap (stripMember strip)

/-- `Builder.unpack_source` as a transformer of the build directory state:
`prev` is the prior state of `build_path` (`some contents` when it is a
directory, `none` when absent). The code removes the directory when present
(`shutil.rmtree`), then extracts the stripped members into it; extraction
into a surviving directory would merge with its contents. -/
def unpack_source (prev : Option (List PyStr)) (memberPaths : List PyStr) :
    List PyStr :=
  let afterRemove : Option (List PyStr) := if prev.isSome then none else prev
  (match afterRemove with
   | some xs => xs
   | none => []) ++ unpackMembers 1 memberPaths

/-- Modelled from the spec: a member path is extracted at "the path obtained
by removing everything up to and including the first separator"; a member
"whose path contains no separator ... is silently dropped". -/
def specStripFirstComponent (p : PyStr) : Option PyStr :=
  if '/' ∈ p then some ((p.dropWhile (· != '/')).tail) else none

/-! ## Pipeline traces (`Builder.prepare`, `SimplePackageBuilder.build`)

Each observable side effect of the pipeline is an event; a stage yields the
events it performs plus a success flag. A raised exception (a patch tool
exiting non-zero makes `cross_venv.run` fail) stops the pipeline, which is
the explicit `Bool` threading below. -/

inductive Event where
  | download
  | removeBuildDir
  | extract
  | patch (p : PyStr)
  | compile
  | wheelPack
  deriving DecidableEq

/-- `Builder.apply_patches` (lines 68-74): apply each `*.patch` file in
order; `patchOk p` is whether the patch tool exits zero on `p`. A non-zero
exit raises, so later patches are not attempted and nothing applied is
rolled back. -/
def apply_patches (patchOk : PyStr → Bool) : List PyStr → List Event × Bool
  | [] => ([], true)
  | p :: ps =>
    if patchOk p then
      let r := apply_patches patchOk ps
      (Event.patch p :: r.1, r.2)
    else ([Event.patch p], false)

/-- `Builder.prepare` (lines 76-88): fetch when `source_file_path` is not a
file, then unpack (removing a pre-existing build directory), then patch. -/
def prepare (sourceExists buildDirExists : Bool) (patches : List PyStr)
    (patchOk : PyStr → Bool) : List Event × Bool :=
  let fetchEvents := if sourceExists then [] else [Event.download]
  let unpackEvents :=
    (if buildDirExists then [Event.removeBuildDir] else []) ++ [Event.extract]
  let pr := apply_patches patchOk patches
  (fetchEvents ++ unpackEvents ++ pr.1, pr.2)

/-- `prepare()` followed by `SimplePackageBuilder.build` (lines 210-212):
`compile()` then `make_wheel()` run only when `prepare` did not raise. -/
def run_pipeline (sourceExists buildDirExists : Bool) (patches : List PyStr)
    (patchOk : PyStr → Bool) : List Event × Bool :=
  let pr := prepare sourceExists buildDirExists patches patchOk
  if pr.2 then (pr.1 ++ [Event.compile, Event.wheelPack], true) else pr

/-- The fetch stage of `prepare` (lines 80-82) as a transformer of the
cached download: `cached` is the content at `source_file_path` (`none` when
the file does not exist), `fetched` what `download_source` would write. -/
def fetch_stage (cached : Option PyStr) (fetched : PyStr) :
    Option PyStr × List Event :=
  match cached with
  | some c => (some c, [])
  | none => (some fetched, [Event.download])

/-! ## The compile invocation (`SimplePackageBuilder.compile`, lines 182-208) -/

/-- One `cross_venv.run(argv, cwd, env)` call. -/
structure Invocation where
  argv : List PyStr
  cwd : List PyStr
  env : List (PyStr × PyStr)
  deriving DecidableEq

/-- `str(path)` for a path below the working directory `cwdRoot`. -/
def joinPath (cwdRoot : PyStr) (comps : List PyStr) : PyStr :=
  cwdRoot ++ (comps.map (fun c => "/".data ++ c)).flatten

/-- The exact invocation issued by `SimplePackageBuilder.compile`:
`build.sh` run in `build_path` with the constructed environment.
`cpu_count` is `multiprocessing.cpu_count()` and `uname_machine` is
`os.uname().machine`. Note the code appends `" -I{install_root}/lib"` — an
include flag — to `LDFLAGS`. -/
def compile_invocation (cwdRoot : PyStr) (p : Package) (v : CrossVEnv)
    (cpu_count : Nat) (uname_machine : PyStr) : Invocation where
  argv := [p.recipe_path ++ "/build.sh".data]
  cwd := build_path .simple p v
  env :=
    [ ("HOST_TRIPLET".data, v.platform_triplet)
    , ("BUILD_TRIPLET".data, uname_machine ++ "-apple-darwin".data)
    , ("CPU_COUNT".data, (Nat.repr cpu_count).data)
    , ("PREFIX".data,
        joinPath cwdRoot (build_path .simple p v ++ ["wheel".data, "opt".data]))
    , ("CC".data, v.cc)
    , ("CFLAGS".data, v.cflags ++ " -I".data ++ v.install_root ++ "/include".data)
    , ("LDFLAGS".data, v.ldflags ++ " -I".data ++ v.install_root ++ "/lib".data)
    ]

/-! ## Metadata files (`write_message_file`, `make_wheel`, lines 129-165)

`write_message_file` builds an `email.message.Message` from the ordered
mapping and flattens it with `maxheaderlen=0`, so every header is written as
`Key: value` on a single unfolded line, followed by the blank line that
separates the (empty) body. -/

/-- One header line as the generator emits it, newline included. -/
def renderHeaderLine (kv : PyStr × PyStr) : PyStr :=
  kv.1 ++ ':' :: ' ' :: (kv.2 ++ ['\n'])

/-- The full document `write_message_file` writes for `data`. -/
def write_message_file (data : List (PyStr × PyStr)) : PyStr :=
  (data.map renderHeaderLine).flatten ++ ['\n']

/-- Split a document at every newline character. -/
def splitLines : PyStr → List PyStr
  | [] => [[]]
  | c :: cs =>
    if c = '\n' then [] :: splitLines cs
    else
      match splitLines cs with
      | [] => [[c]]
      | l :: ls => (c :: l) :: ls

/-- Parse one header line: the name is everything before the first colon,
the value the remainder with the colon and leading blanks removed. -/
def parseHeaderLine (l : PyStr) : PyStr × PyStr :=
  (l.takeWhile (· != ':'),
   ((l.dropWhile (· != ':')).drop 1).dropWhile (fun c => c == ' ' || c == '\t'))

/-- Re-parse a header document: the header lines are those before the first
blank line. -/
def parse_message (content : PyStr) : List (PyStr × PyStr) :=
  ((splitLines content).takeWhile (· != [])).map parseHeaderLine

/-- A header name round-trips when it contains no newline and no colon. -/
def ValidKey (k : PyStr) : Prop := '\n' ∉ k ∧ ':' ∉ k

/-- A header value round-trips when it contains no newline and does not
start with a blank. -/
def ValidValue (v : PyStr) : Prop :=
  '\n' ∉ v ∧ v.head? ≠ some ' ' ∧ v.head? ≠ some '\t'

instance (k : PyStr) : Decidable (ValidKey k) :=
  inferInstanceAs (Decidable ('\n' ∉ k ∧ ':' ∉ k))

instance (v : PyStr) : Decidable (ValidValue v) :=
  inferInstanceAs
    (Decidable ('\n' ∉ v ∧ v.head? ≠ some ' ' ∧ v.head? ≠ some '\t'))

/-- The ordered header mapping `make_wheel` passes to `write_message_file`
for the `WHEEL` file (lines 148-154). -/
def wheel_file_data (p : Package) (v : CrossVEnv) : List (PyStr × PyStr) :=
  [ ("Wheel-Version".data, "1.0".data)
  , ("Root-Is-Purelib".data, "false".data)
  , ("Generator".data, "mobile-forge".data)
  , ("Build".data, p.build_number)
  , ("Tag".data, "py3-none-".data ++ v.tag)
  ]

/-! ## PyPI sdist lookup (`PythonPackageBuilder.download_source`, lines 237-251) -/

/-- A distribution listed on the project's index page. -/
structure DistPackage where
  package_type : PyStr
  version : PyStr
  deriving DecidableEq

/-- The `sdists` list comprehension: keep entries whose `package_type` is
`"sdist"` and whose version equals the record's version. -/
def matching_sdists (p : Package) (page : List DistPackage) : List DistPackage :=
  page.filter fun d =>
    d.package_type == "sdist".data && d.version == p.version

/-- `download_source` downloads `sdists[0]`; `none` models the `IndexError`
raised by the unguarded indexing when no entry matches. -/
def download_source_python (p : Package) (page : List DistPackage) :
    Option DistPackage :=
  (matching_sdists p page).head?

/-! ## Concrete example records, used to instantiate theorems -/

def pkgA : Package where
  name := "foo".data
  version := "1.2.3".data
  source_url := "https://x.example/foo-1.2.3.tar.gz".data
  build_number := "0".data
  recipe_path := "recipes/foo".data

def pkgB : Package where
  name := "bar".data
  version := "2.0".data
  source_url := "https://mirror.example/foo-1.2.3.tar.gz".data
  build_number := "1".data
  recipe_path := "recipes/bar".data

def venvA : CrossVEnv where
  tag := "ios_13_0_arm64".data
  platform_triplet := "arm64-apple-ios13.0".data
  install_root := "/install".data
  cc := "clang".data
  cflags := "-O2".data
  ldflags := "-lz".data

def venvB : CrossVEnv where
  tag := "ios_13_0_x86_64".data
  platform_triplet := "x86_64-apple-ios13.0".data
  install_root := "/install64".data
  cc := "clang".data
  cflags := "-O3".data
  ldflags := "-lm".data

/-! ## Path-stripping lemmas -/

theorem pySplitOnce_eq (sep : Char) (p : PyStr) :
    pySplitOnce sep p =
      if sep ∈ p then
        some (p.takeWhile (· != sep), (p.dropWhile (· != sep)).tail)
      else none := by
  induction p with
  | nil => simp [pySplitOnce]
  | cons c cs ih =>
    by_cases hc : c = sep
    · subst hc
      simp [pySplitOnce, List.takeWhile_cons, List.dropWhile_cons]
    · by_cases hm : sep ∈ cs
      · simp [pySplitOnce, hc, ih, hm, List.takeWhile_cons, List.dropWhile_cons,
          Ne.symm hc]
      · simp [pySplitOnce, hc, ih, hm, Ne.symm hc]

theorem stripMember_one_eq_spec (p : PyStr) :
    stripMember 1 p = specStripFirstComponent p := by
  unfold stripMember specStripFirstComponent
  show (pySplit '/' 1 p)[1]? = _
  unfold pySplit
  rw [pySplitOnce_eq]
  by_cases hm : '/' ∈ p
  · simp [hm, pySplit]
  · simp [hm]

/-- C1: every tar member path with at least one `/` separator is extracted
by `unpack_source` (strip=1) at the path with everything up to and including
the first separator removed; every member path without a separator is
silently dropped and produces no output file. -/
theorem unpack_strips_first_component (prev : Option (List PyStr))
    (paths : List PyStr) :
    unpack_source prev paths = paths.filterMap specStripFirstComponent := by
  have h : unpackMembers 1 paths = paths.filterMap specStripFirstComponent := by
    unfold unpackMembers
    rw [funext stripMember_one_eq_spec]
  cases prev <;> simp [unpack_source, h]

/-- C8: unpacking over a pre-existing build directory removes it first, so
the resulting directory holds exactly the members extracted from the current
archive — nothing from the previous contents survives. -/
theorem unpack_source_clean_rebuild (prevContents : List PyStr)
    (memberPaths : List PyStr) :
    unpack_source (some prevContents) memberPaths = unpackMembers 1 memberPaths := by
  simp [unpack_source]

/-! ## Path uniqueness across targets and packages -/

/-- C2 (amended): for one package record built against two target
environments with distinct tags, `source_file_path` agrees for every
strategy, and `build_path` is distinct for the simple and cmake builders;
`PythonPackageBuilder.build_path` contains no tag component, so its two
build paths are equal. -/
theorem paths_across_target_tags (p : Package) (v1 v2 : CrossVEnv)
    (h : v1.tag ≠ v2.tag) :
    (∀ s : Strategy, source_file_path s p v1 = source_file_path s p v2) ∧
    build_path .simple p v1 ≠ build_path .simple p v2 ∧
    build_path .cmake p v1 ≠ build_path .cmake p v2 ∧
    build_path .python p v1 = build_path .python p v2 := by
  refine ⟨fun s => by cases s <;> rfl, ?_, ?_, rfl⟩ <;>
    simp [build_path, h]

theorem paths_across_target_tags_witness :
    venvA.tag ≠ venvB.tag ∧
    ((∀ s : Strategy, source_file_path s pkgA venvA = source_file_path s pkgA venvB) ∧
      build_path .simple pkgA venvA ≠ build_path .simple pkgA venvB ∧
      build_path .cmake pkgA venvA ≠ build_path .cmake pkgA venvB ∧
      build_path .python pkgA venvA = build_path .python pkgA venvB) :=
  ⟨by decide, paths_across_target_tags pkgA venvA venvB (by decide)⟩

/-- C2 counterexample: the claim as stated fails for
`PythonPackageBuilder`: two target environments with distinct tags share one
`build_path`, because the python builder's build path has no tag component. -/
theorem python_build_path_ignores_tag :
    venvA.tag ≠ venvB.tag ∧
    build_path .python pkgA venvA = build_path .python pkgA venvB := by
  constructor
  · decide
  · rfl

/-- C9 (amended): `PythonPackageBuilder.source_file_path` values differ
whenever the rendered `<name>-<version>` strings differ; for the simple and
cmake builders `source_file_path` is determined by the final `/`-segment of
the source URL alone, so records with equal final URL segments share one
cached download regardless of name and version. -/
theorem source_cache_key (p1 p2 : Package) (v : CrossVEnv) :
    (p1.name ++ "-".data ++ p1.version ≠ p2.name ++ "-".data ++ p2.version →
      source_file_path .python p1 v ≠ source_file_path .python p2 v) ∧
    (lastSegment p1.source_url = lastSegment p2.source_url →
      source_file_path .simple p1 v = source_file_path .simple p2 v ∧
      source_file_path .cmake p1 v = source_file_path .cmake p2 v) := by
  constructor
  · intro h heq
    apply h
    simp only [source_file_path, List.cons.injEq, and_true, true_and] at heq
    have heq' :
        (p1.name ++ "-".data ++ p1.version) ++ ".tar.gz".data =
          (p2.name ++ "-".data ++ p2.version) ++ ".tar.gz".data := by
      simpa [List.append_assoc] using heq
    exact List.append_cancel_right heq'
  · intro h
    exact ⟨by simp [source_file_path, h], by simp [source_file_path, h]⟩

theorem source_cache_key_witness :
    (pkgA.name ++ "-".data ++ pkgA.version ≠ pkgB.name ++ "-".data ++ pkgB.version ∧
      source_file_path .python pkgA venvA ≠ source_file_path .python pkgB venvA) ∧
    (lastSegment pkgA.source_url = lastSegment pkgB.source_url ∧
      source_file_path .simple pkgA venvA = source_file_path .simple pkgB venvA) :=
  ⟨⟨by decide, (source_cache_key pkgA pkgB venvA).1 (by decide)⟩,
   ⟨by decide, ((source_cache_key pkgA pkgB venvA).2 (by decide)).1⟩⟩

/-- C9 counterexample: two records with different names and versions but
source URLs ending in the same segment share one
`SimplePackageBuilder.source_file_path` — the download cache collides. -/
theorem source_path_collision :
    (pkgA.name ≠ pkgB.name ∧ pkgA.version ≠ pkgB.version) ∧
    source_file_path .simple pkgA venvA = source_file_path .simple pkgB venvA := by
  constructor
  · decide
  · decide

/-! ## The compile environment (C5) -/

/-- C5: the exact invocation `SimplePackageBuilder.compile` issues at a
concrete input. `HOST_TRIPLET`, `CPU_COUNT`, `PREFIX`, `CC` and `CFLAGS`
are as the claim describes, but the value bound to `LDFLAGS` is the
sysconfig `LDFLAGS` with `" -I/install/lib"` appended — an `-I`
preprocessor include flag on the lib directory, not an `-L` linker library
search path. -/
theorem compile_invocation_at_example :
    compile_invocation "/work".data pkgA venvA 8 "arm64".data =
      { argv := ["recipes/foo/build.sh".data]
        cwd := ["build".data, "foo".data, "1.2.3".data, "ios_13_0_arm64".data]
        env :=
          [ ("HOST_TRIPLET".data, "arm64-apple-ios13.0".data)
          , ("BUILD_TRIPLET".data, "arm64-apple-darwin".data)
          , ("CPU_COUNT".data, "8".data)
          , ("PREFIX".data, "/work/build/foo/1.2.3/ios_13_0_arm64/wheel/opt".data)
          , ("CC".data, "clang".data)
          , ("CFLAGS".data, "-O2 -I/install/include".data)
          , ("LDFLAGS".data, "-lz -I/install/lib".data)
          ] } := by
  decide

/-! ## Metadata round trip (C6, C3) -/

theorem splitLines_append_line (l rest : PyStr) (h : '\n' ∉ l) :
    splitLines (l ++ '\n' :: rest) = l :: splitLines rest := by
  induction l with
  | nil => simp [splitLines]
  | cons c cs ih =>
    have hc : c ≠ '\n' := fun e => h (e ▸ List.mem_cons_self c cs)
    have ih' := ih fun m => h (List.mem_cons_of_mem c m)
    simp [splitLines, hc, ih']

theorem takeWhile_append_stop (p : Char → Bool) (l r : PyStr) (x : Char)
    (hl : ∀ c ∈ l, p c = true) (hx : p x = false) :
    (l ++ x :: r).takeWhile p = l := by
  induction l with
  | nil => simp [List.takeWhile_cons, hx]
  | cons c cs ih =>
    have hc := hl c (List.mem_cons_self c cs)
    simp [List.takeWhile_cons, hc,
      ih fun d hd => hl d (List.mem_cons_of_mem c hd)]

theorem dropWhile_append_stop (p : Char → Bool) (l r : PyStr) (x : Char)
    (hl : ∀ c ∈ l, p c = true) (hx : p x = false) :
    (l ++ x :: r).dropWhile p = x :: r := by
  induction l with
  | nil => simp [List.dropWhile_cons, hx]
  | cons c cs ih =>
    have hc := hl c (List.mem_cons_self c cs)
    simp [List.dropWhile_cons, hc,
      ih fun d hd => hl d (List.mem_cons_of_mem c hd)]

theorem parseHeaderLine_render (k v : PyStr) (hk : ValidKey k) (hv : ValidValue v) :
    parseHeaderLine (k ++ ':' :: ' ' :: v) = (k, v) := by
  unfold parseHeaderLine
  have hkc : ∀ c ∈ k, (c != ':') = true := fun c hc => by
    simp only [bne_iff_ne, ne_eq]
    exact fun e => hk.2 (e ▸ hc)
  rw [takeWhile_append_stop _ k (' ' :: v) ':' hkc (by simp),
    dropWhile_append_stop _ k (' ' :: v) ':' hkc (by simp)]
  simp only [List.drop_succ_cons, List.drop_zero, List.dropWhile_cons]
  have hbl : v.dropWhile (fun c => c == ' ' || c == '\t') = v := by
    cases v with
    | nil => rfl
    | cons c cs =>
      have h1 : c ≠ ' ' := fun e => hv.2.1 (by simp [e])
      have h2 : c ≠ '\t' := fun e => hv.2.2 (by simp [e])
      simp [List.dropWhile_cons, h1, h2]
  simp [hbl]

theorem renderHeaderLine_not_nil (k v : PyStr) (hk : ValidKey k) (hv : ValidValue v) :
    '\n' ∉ k ++ ':' :: ' ' :: v := by
  intro hm
  rcases List.mem_append.mp hm with h | h
  · exact hk.1 h
  · rcases h with _ | ⟨_, h⟩
    rcases h with _ | ⟨_, h⟩
    exact hv.1 h

theorem write_parse_roundtrip_aux (data : List (PyStr × PyStr))
    (h : ∀ kv ∈ data, ValidKey kv.1 ∧ ValidValue kv.2) :
    parse_message (write_message_file data) = data := by
  induction data with
  | nil => rfl
  | cons kv rest ih =>
    obtain ⟨k, v⟩ := kv
    obtain ⟨hk, hv⟩ := h (k, v) (List.mem_cons_self _ _)
    have hrest := ih fun kv hkv => h kv (List.mem_cons_of_mem _ hkv)
    have hshape :
        write_message_file ((k, v) :: rest) =
          (k ++ ':' :: ' ' :: v) ++ '\n' :: write_message_file rest := by
      simp [write_message_file, renderHeaderLine]
    have hline : '\n' ∉ k ++ ':' :: ' ' :: v := renderHeaderLine_not_nil k v hk hv
    have hne : ((k ++ ':' :: ' ' :: v) != ([] : PyStr)) = true := by
      simp
    unfold parse_message at hrest ⊢
    rw [hshape, splitLines_append_line _ _ hline]
    simp only [List.takeWhile_cons, hne, if_true, List.map_cons]
    rw [parseHeaderLine_render k v hk hv, hrest]

/-- C6: writing an ordered header mapping with `write_message_file` and
re-parsing the document yields the same pairs in the same order; with
`maxheaderlen=0` no value is ever folded, whatever its length. -/
theorem write_message_file_roundtrip (data : List (PyStr × PyStr))
    (h : ∀ kv ∈ data, ValidKey kv.1 ∧ ValidValue kv.2) :
    parse_message (write_message_file data) = data :=
  write_parse_roundtrip_aux data h

theorem write_message_file_roundtrip_witness :
    (∀ kv ∈ [("A".data, "1".data),
        ("B".data,
          (String.data <|
            "0123456789012345678901234567890123456789" ++
            "0123456789012345678901234567890123456789012345"))],
        ValidKey kv.1 ∧ ValidValue kv.2) ∧
    parse_message (write_message_file [("A".data, "1".data),
        ("B".data,
          (String.data <|
            "0123456789012345678901234567890123456789" ++
            "0123456789012345678901234567890123456789012345"))]) =
      [("A".data, "1".data),
        ("B".data,
          (String.data <|
            "0123456789012345678901234567890123456789" ++
            "0123456789012345678901234567890123456789012345"))] :=
  ⟨by decide, write_message_file_roundtrip _ (by decide)⟩

/-- C3: the `WHEEL` document `make_wheel` writes parses back to exactly the
headers `Wheel-Version: 1.0`, `Root-Is-Purelib: false`,
`Generator: mobile-forge`, `Build: <record's build number>`,
`Tag: py3-none-<target tag>`, in this order. -/
theorem make_wheel_wheel_file (p : Package) (v : CrossVEnv)
    (hb : ValidValue p.build_number) (ht : '\n' ∉ v.tag) :
    parse_message (write_message_file (wheel_file_data p v)) =
      [ ("Wheel-Version".data, "1.0".data)
      , ("Root-Is-Purelib".data, "false".data)
      , ("Generator".data, "mobile-forge".data)
      , ("Build".data, p.build_number)
      , ("Tag".data, "py3-none-".data ++ v.tag)
      ] := by
  apply write_parse_roundtrip_aux
  intro kv hkv
  simp only [wheel_file_data, List.mem_cons, List.not_mem_nil, or_false] at hkv
  rcases hkv with rfl | rfl | rfl | rfl | rfl
  · exact ⟨show ValidKey ("Wheel-Version".data) by decide,
      show ValidValue ("1.0".data) by decide⟩
  · exact ⟨show ValidKey ("Root-Is-Purelib".data) by decide,
      show ValidValue ("false".data) by decide⟩
  · exact ⟨show ValidKey ("Generator".data) by decide,
      show ValidValue ("mobile-forge".data) by decide⟩
  · exact ⟨show ValidKey ("Build".data) by decide, hb⟩
  · refine ⟨show ValidKey ("Tag".data) by decide, ?_, ?_, ?_⟩
    · intro hm
      rcases List.mem_append.mp hm with h | h
      · revert h
        decide
      · exact ht h
    · simp only [List.cons_append, List.head?_cons]
      decide
    · simp only [List.cons_append, List.head?_cons]
      decide

theorem make_wheel_wheel_file_witness :
    (ValidValue pkgA.build_number ∧ '\n' ∉ venvA.tag) ∧
    parse_message (write_message_file (wheel_file_data pkgA venvA)) =
      [ ("Wheel-Version".data, "1.0".data)
      , ("Root-Is-Purelib".data, "false".data)
      , ("Generator".data, "mobile-forge".data)
      , ("Build".data, pkgA.build_number)
      , ("Tag".data, "py3-none-".data ++ venvA.tag)
      ] :=
  ⟨⟨by decide, by decide⟩, make_wheel_wheel_file pkgA venvA (by decide) (by decide)⟩

/-! ## Pipeline abort and fetch skipping (C4, C7) -/

theorem apply_patches_events_are_patches (ok : PyStr → Bool) (ps : List PyStr) :
    ∀ e ∈ (apply_patches ok ps).1, ∃ q, e = Event.patch q := by
  induction ps with
  | nil => simp [apply_patches]
  | cons p t ih =>
    intro e he
    by_cases hp : ok p
    · simp only [apply_patches, hp, if_true, List.mem_cons] at he
      rcases he with rfl | he
      · exact ⟨p, rfl⟩
      · exact ih e he
    · simp [apply_patches, hp] at he
      exact ⟨p, he⟩

theorem apply_patches_fail (ok : PyStr → Bool) (ps : List PyStr)
    (h : ∃ p ∈ ps, ok p = false) : (apply_patches ok ps).2 = false := by
  induction ps with
  | nil => simp at h
  | cons p t ih =>
    by_cases hp : ok p
    · simp only [apply_patches, hp, if_true]
      rcases h with ⟨q, hq, hqf⟩
      rcases List.mem_cons.mp hq with rfl | hq
      · exact absurd hp (by simp [hqf])
      · exact ih ⟨q, hq, hqf⟩
    · simp [apply_patches, hp]

theorem apply_patches_no_rollback (ok : PyStr → Bool) (ps : List PyStr) :
    ∀ q ∈ ps.takeWhile ok, Event.patch q ∈ (apply_patches ok ps).1 := by
  induction ps with
  | nil => simp
  | cons p t ih =>
    intro q hq
    by_cases hp : ok p
    · simp only [List.takeWhile_cons, hp, if_true, List.mem_cons] at hq
      rcases hq with rfl | hq
      · simp [apply_patches, hp]
      · simp only [apply_patches, hp, if_true, List.mem_cons]
        exact Or.inr (ih q hq)
    · simp [List.takeWhile_cons, hp] at hq

/-- C4: when the patch tool exits non-zero on some patch file, the pipeline
fails, `compile()` is never invoked, and the patches applied before the
failing one stay applied — no rollback happens. -/
theorem patch_failure_aborts (se bde : Bool) (ps : List PyStr)
    (ok : PyStr → Bool) (h : ∃ p ∈ ps, ok p = false) :
    (run_pipeline se bde ps ok).2 = false ∧
    Event.compile ∉ (run_pipeline se bde ps ok).1 ∧
    ∀ q ∈ ps.takeWhile ok, Event.patch q ∈ (run_pipeline se bde ps ok).1 := by
  have hfail := apply_patches_fail ok ps h
  have hnp : Event.compile ∉ (apply_patches ok ps).1 := by
    intro hm
    obtain ⟨q, hq⟩ := apply_patches_events_are_patches ok ps _ hm
    exact Event.noConfusion hq
  refine ⟨?_, ?_, ?_⟩
  · simp [run_pipeline, prepare, hfail]
  · cases se <;> cases bde <;>
      simp [run_pipeline, prepare, hfail, hnp]
  · intro q hq
    have := apply_patches_no_rollback ok ps q hq
    cases se <;> cases bde <;>
      simp [run_pipeline, prepare, hfail, this]

theorem patch_failure_aborts_witness :
    (∃ p ∈ ["0001-fix.patch".data], (fun _ : PyStr => false) p = false) ∧
    ((run_pipeline true false ["0001-fix.patch".data] (fun _ => false)).2 = false ∧
      Event.compile ∉
        (run_pipeline true false ["0001-fix.patch".data] (fun _ => false)).1 ∧
      ∀ q ∈ ["0001-fix.patch".data].takeWhile (fun _ : PyStr => false),
        Event.patch q ∈
          (run_pipeline true false ["0001-fix.patch".data] (fun _ => false)).1) :=
  ⟨by decide, patch_failure_aborts true false _ _ (by decide)⟩

/-- C7: the pipeline downloads if and only if `source_file_path` is not
already a file; when the cached file exists the fetch stage performs no
download and leaves the cached content unchanged. -/
theorem fetch_skipped_iff_cached (se bde : Bool) (ps : List PyStr)
    (ok : PyStr → Bool) (cached fetched : PyStr) :
    (Event.download ∈ (run_pipeline se bde ps ok).1 ↔ se = false) ∧
    fetch_stage (some cached) fetched = (some cached, []) ∧
    fetch_stage none fetched = (some fetched, [Event.download]) := by
  have hnd : Event.download ∉ (apply_patches ok ps).1 := by
    intro hm
    obtain ⟨q, hq⟩ := apply_patches_events_are_patches ok ps _ hm
    exact Event.noConfusion hq
  refine ⟨?_, rfl, rfl⟩
  cases se <;> cases bde <;>
    cases hpr : (apply_patches ok ps).2 <;>
    simp [run_pipeline, prepare, hpr, hnd]

/-! ## PyPI sdist selection (C10) -/

theorem head?_filter_eq_find? {α : Type} (pred : α → Bool) (l : List α) :
    (l.filter pred).head? = l.find? pred := by
  induction l with
  | nil => rfl
  | cons a t ih =>
    by_cases h : pred a <;>
      simp [List.filter_cons, h, List.find?_cons, ih]

/-- C10: `PythonPackageBuilder.download_source` selects the first index
entry that is an sdist of the record's version; it succeeds (the unguarded
`sdists[0]` does not raise `IndexError`) exactly when such an entry exists
on the project page. -/
theorem download_source_python_first_sdist (p : Package)
    (page : List DistPackage) :
    download_source_python p page =
      page.find?
        (fun d => d.package_type == "sdist".data && d.version == p.version) ∧
    ((download_source_python p page).isSome ↔
      ∃ d ∈ page, d.package_type = "sdist".data ∧ d.version = p.version) := by
  have h1 : download_source_python p page =
      page.find?
        (fun d => d.package_type == "sdist".data && d.version == p.version) :=
    head?_filter_eq_find? _ page
  refine ⟨h1, ?_⟩
  rw [h1, List.find?_isSome]
  simp

end Forge
